import Mathlib

/-!
Verification of the tableGen motor-analysis core against its design document.

The definitions below are a shallow embedding of the Python sources:
Python floats are idealised as real numbers, NumPy arrays as lists, and a
Python division that can raise `ZeroDivisionError` is embedded as an
`Option`/`Except` returning function.  Pandas DataFrames are embedded as
lists of row records.
-/

namespace TableGen

noncomputable section

/-- One measurement point used by the interpolation engine: the four
parallel NumPy arrays `id_data, iq_data, psi_d_data, psi_q_data` of
`src/table_generator.py` are embedded as one list of records. -/
structure DataPoint where
  id : ℝ
  iq : ℝ
  psiD : ℝ
  psiQ : ℝ

/-- Euclidean distance from a data point to the query, line 38 of
`src/table_generator.py`:
`np.sqrt((id_data - id_target) ** 2 + (iq_data - iq_target) ** 2)`. -/
def dist (idTarget iqTarget : ℝ) (p : DataPoint) : ℝ :=
  Real.sqrt ((p.id - idTarget) ^ 2 + (p.iq - iqTarget) ^ 2)

/-- Distance clamp of line 55:
`np.where(dists_filtered < 0.001, 0.001, dists_filtered)`. -/
def clampDist (d : ℝ) : ℝ :=
  if d < 0.001 then 0.001 else d

/-- First point of minimal distance among `best :: rest`; embeds
`np.argmin(distances)` (first index of the minimum) combined with the
indexing `psi_d_data[nearest_idx]` of lines 45 and 46. -/
def nearestAux (idTarget iqTarget : ℝ) (best : DataPoint) :
    List DataPoint → DataPoint
  | [] => best
  | p :: ps =>
      if dist idTarget iqTarget p < dist idTarget iqTarget best then
        nearestAux idTarget iqTarget p ps
      else
        nearestAux idTarget iqTarget best ps

/-- Embeds `interpolate_idw` of `src/table_generator.py`, lines 11 to 64.
Returns `none` exactly when the data is empty and the nearest-neighbour
branch is reached (there `np.argmin` raises on an empty array); in every
other case the Python function returns normally. -/
def interpolate_idw (data : List DataPoint) (idTarget iqTarget maxDist : ℝ) :
    Option (ℝ × ℝ) :=
  -- line 41: within_threshold = distances < max_dist
  let within := data.filter fun p => decide (dist idTarget iqTarget p < maxDist)
  if within.isEmpty then
    -- lines 44 to 46: nearest-neighbour fallback
    match data with
    | [] => none
    | p :: ps =>
        let nearest := nearestAux idTarget iqTarget p ps
        some (nearest.psiD, nearest.psiQ)
  else
    -- lines 49 to 64: clamped inverse-distance weights, normalised
    let weightOf := fun p => 1 / clampDist (dist idTarget iqTarget p)
    let weightSum := (within.map weightOf).sum
    some ((within.map fun p => p.psiD * weightOf p).sum / weightSum,
          (within.map fun p => p.psiQ * weightOf p).sum / weightSum)

/-- Embeds `electrical_frequency` of `src/lib/calculations/frequency.py`, line 28:
`abs(mechanical_speed_rpm) * pole_pairs * (2 * math.pi / 60)`. -/
def electrical_frequency (mechanicalSpeedRpm : ℝ) (polePairs : ℤ) : ℝ :=
  |mechanicalSpeedRpm| * (polePairs : ℝ) * (2 * Real.pi / 60)

/-- Embeds `calculate_flux_linkage_d_axis` of `src/lib/calculations/flux.py`,
lines 44 to 67.  The Python body is
`-1 * ((stator_resistance * current_q_axis) - voltage_q_axis) /
electrical_frequency_rads`; a zero frequency raises `ZeroDivisionError`,
embedded as `none`. -/
def calculate_flux_linkage_d_axis (voltageQAxis currentQAxis
    electricalFrequencyRads statorResistance : ℝ) : Option ℝ :=
  if electricalFrequencyRads = 0 then none
  else some (-1 * ((statorResistance * currentQAxis) - voltageQAxis) /
    electricalFrequencyRads)

/-- Embeds `calculate_flux_linkage_q_axis` of `src/lib/calculations/flux.py`,
lines 70 to 93: `((stator_resistance * current_d_axis) - voltage_d_axis) /
electrical_frequency_rads`, with a zero frequency raising, embedded as
`none`. -/
def calculate_flux_linkage_q_axis (voltageDAxis currentDAxis
    electricalFrequencyRads statorResistance : ℝ) : Option ℝ :=
  if electricalFrequencyRads = 0 then none
  else some (((statorResistance * currentDAxis) - voltageDAxis) /
    electricalFrequencyRads)

/-- Embeds `park_transform` of `src/lib/calculations/transformations.py`,
lines 65 to 90. -/
def park_transform (alpha beta theta : ℝ) : ℝ × ℝ :=
  (alpha * Real.cos theta + beta * Real.sin theta,
   -alpha * Real.sin theta + beta * Real.cos theta)

/-- Embeds `inverse_park_transform` of `src/lib/calculations/transformations.py`,
lines 93 to 116. -/
def inverse_park_transform (dComponent qComponent theta : ℝ) : ℝ × ℝ :=
  (dComponent * Real.cos theta - qComponent * Real.sin theta,
   dComponent * Real.sin theta + qComponent * Real.cos theta)

/-- Embeds `calculate_torque_flux_nm` of `src/lib/calculations/torque.py`:
`(3/2) * pole_pairs * (psi_d * i_q - psi_q * i_d)`. -/
def calculate_torque_flux_nm (fluxLinkageDAxisWb fluxLinkageQAxisWb
    currentQAxisA currentDAxisA : ℝ) (polePairs : ℤ) : ℝ :=
  (3 / 2) * (polePairs : ℝ) *
    (fluxLinkageDAxisWb * currentQAxisA - fluxLinkageQAxisWb * currentDAxisA)

/-- Embeds `peak_to_rms` of `src/data_processor.py`, lines 17 to 34. -/
def peak_to_rms (peakValue : ℝ) : ℝ :=
  peakValue / Real.sqrt 2

/-- Modelled from the spec: `src/lib/calculations/inductance.py` is imported
by `src/lib/calculations/__init__.py` and by `tests/test_calculations.py`
but the file itself is absent from the source tree.  Section 4.1 of the
design document: `Ld = (psi_d - psi_pm) / id`, zero when `id = 0`, the
zero-denominator guard returning `0.0` rather than failing.  Argument
order follows the calls in `tests/test_calculations.py`. -/
def inductance_d (psiD iD psiPm : ℝ) : ℝ :=
  if iD = 0 then 0 else (psiD - psiPm) / iD

/-- Modelled from the spec: missing `inductance.py`, section 4.1 of the
design document: `Lq = psi_q / iq`, zero when `iq = 0`. -/
def inductance_q (psiQ iQ : ℝ) : ℝ :=
  if iQ = 0 then 0 else psiQ / iQ

/-- Modelled from the spec: missing `inductance.py`, section 4.1 of the
design document: `Ld = (uq - Rs*iq - omega_e*psi_pm) / (omega_e*id)`, zero
when the denominator is zero.  Argument order follows the call
`inductance_d_voltage(u_q, i_q, omega_e, rs, psi_pm, i_d)` in
`tests/test_calculations.py`. -/
def inductance_d_voltage (uQ iQ omegaE rs psiPm iD : ℝ) : ℝ :=
  if omegaE * iD = 0 then 0
  else (uQ - rs * iQ - omegaE * psiPm) / (omegaE * iD)

/-- Modelled from the spec: missing `inductance.py`, section 4.1 of the
design document: `Lq = (Rs*id - ud) / (omega_e*iq)`, zero when the
denominator is zero.  Argument order follows the call
`inductance_q_voltage(u_d, i_d, omega_e, rs, i_q)` in
`tests/test_calculations.py`. -/
def inductance_q_voltage (uD iD omegaE rs iQ : ℝ) : ℝ :=
  if omegaE * iQ = 0 then 0
  else (rs * iD - uD) / (omegaE * iQ)

/-- Embeds `np.linspace(start, stop, num)` for the evenly spaced grids of
lines 112 and 113 of `src/table_generator.py`: `num` points from `start`
to `stop` inclusive.  Over the reals the NumPy endpoint adjustment is the
exact formula `start + i * (stop - start) / (num - 1)`. -/
def linspace (start stop : ℝ) (num : ℕ) : List ℝ :=
  if num = 1 then [start]
  else (List.range num).map fun i : ℕ =>
    start + (i : ℝ) * (stop - start) / ((num : ℝ) - 1)

/-- Embeds `np.max` over a nonempty array (the empty case raises and is guarded
by the caller; the value returned here for `[]` is never used). -/
def listMax : List ℝ → ℝ
  | [] => 0
  | x :: xs => xs.foldl max x

/-- Embeds `np.min` over a nonempty array. -/
def listMin : List ℝ → ℝ
  | [] => 0
  | x :: xs => xs.foldl min x

/-- The automatic interpolation radius of lines 121 to 125 of
`src/table_generator.py`:
`max_dist = sqrt(range(id)^2 + range(iq)^2) / 2` where
`range(x) = np.max(x) - np.min(x)` over the sample coordinates.  It
depends on the measurement data only. -/
def dataMaxDist (data : List DataPoint) : ℝ :=
  Real.sqrt ((listMax (data.map DataPoint.id) - listMin (data.map DataPoint.id)) ^ 2 +
    (listMax (data.map DataPoint.iq) - listMin (data.map DataPoint.iq)) ^ 2) / 2

/-- The dictionary returned by `generate_pmac_tables`, lines 173 to 180 of
`src/table_generator.py`.  Tables are row lists indexed `[iq][id]`. -/
structure TableResult where
  psiD : List (List ℝ)
  psiQ : List (List ℝ)
  idGrid : List ℝ
  iqGrid : List ℝ
  idMatrix : List (List ℝ)
  iqMatrix : List (List ℝ)

/-- Embeds `generate_pmac_tables` of `src/table_generator.py`, lines 67 to 181.
Failures, in source order: the `assert` on `size` (line 102), the `assert`
on `maxCurrent` (line 103), the `ZeroDivisionError` from
`step = max_current / (size - 1)` at `size = 1` (line 110), and the
`ValueError` from `np.max` on an empty data array (line 123).  The Python
double loop fills `psi_d_table[y, x]` with the interpolation at
`(id_grid[x], iq_grid[y])`; the same matrix is built here row by row.
Since the data is nonempty past the emptiness guard, `interpolate_idw`
always returns `some`; `getD` only unwraps it. -/
def generate_pmac_tables (data : List DataPoint) (size : ℤ) (maxCurrent : ℝ) :
    Except String TableResult :=
  if size ≤ 0 then .error "Table size must be positive"
  else if maxCurrent ≤ 0 then .error "Max current must be positive"
  else if size = 1 then .error "ZeroDivisionError: division by zero"
  else if data.isEmpty then .error "ValueError: zero-size array reduction"
  else
    let n := size.toNat
    let idGrid := linspace 0 (-maxCurrent) n
    let iqGrid := linspace 0 maxCurrent n
    let maxDist := dataMaxDist data
    .ok
      { psiD := iqGrid.map fun iqTarget => idGrid.map fun idTarget =>
          ((interpolate_idw data idTarget iqTarget maxDist).getD (0, 0)).1
        psiQ := iqGrid.map fun iqTarget => idGrid.map fun idTarget =>
          ((interpolate_idw data idTarget iqTarget maxDist).getD (0, 0)).2
        idGrid := idGrid
        iqGrid := iqGrid
        idMatrix := iqGrid.map fun _ => idGrid
        iqMatrix := iqGrid.map fun iqTarget => idGrid.map fun _ => iqTarget }

/-- One row of the raw measurement DataFrame consumed by `process_data`
in `src/data_processor.py`. -/
structure RawRow where
  speedRpm : ℝ
  voltageDAxisVpeak : ℝ
  voltageQAxisVpeak : ℝ
  currentDAxisApeak : ℝ
  currentQAxisApeak : ℝ

/-- One row of the processed DataFrame: the raw columns plus the derived
columns added by `process_data`. -/
structure DerivedRow where
  raw : RawRow
  electricalFrequencyRads : ℝ
  fluxLinkageDAxisWb : ℝ
  fluxLinkageQAxisWb : ℝ
  torqueElectromagneticNm : ℝ
  currentDAxisArms : ℝ
  currentQAxisArms : ℝ
  voltageDAxisVrms : ℝ
  voltageQAxisVrms : ℝ

/-- The per-row computation of `process_data` (`src/data_processor.py`,
lines 65 to 120): electrical frequency, the two voltage-equation flux
linkages (which raise on zero frequency, hence `Option`), flux-based
torque and the four RMS conversions.  No parameter is validated here. -/
def processRow (polePairs : ℤ) (statorResistance : ℝ) (r : RawRow) :
    Option DerivedRow :=
  let omegaE := electrical_frequency r.speedRpm polePairs
  match calculate_flux_linkage_d_axis r.voltageQAxisVpeak r.currentQAxisApeak
      omegaE statorResistance,
    calculate_flux_linkage_q_axis r.voltageDAxisVpeak r.currentDAxisApeak
      omegaE statorResistance with
  | some psiD, some psiQ =>
      some
        { raw := r
          electricalFrequencyRads := omegaE
          fluxLinkageDAxisWb := psiD
          fluxLinkageQAxisWb := psiQ
          torqueElectromagneticNm := calculate_torque_flux_nm psiD psiQ
            r.currentQAxisApeak r.currentDAxisApeak polePairs
          currentDAxisArms := peak_to_rms r.currentDAxisApeak
          currentQAxisArms := peak_to_rms r.currentQAxisApeak
          voltageDAxisVrms := peak_to_rms r.voltageDAxisVpeak
          voltageQAxisVrms := peak_to_rms r.voltageQAxisVpeak }
  | _, _ => none

/-- Embeds `process_data` of `src/data_processor.py`, lines 37 to 126: applies
the derivation to every row; any row with zero electrical frequency makes
the whole call fail with the `ZeroDivisionError` raised inside the pandas
`apply` (the column-wise pandas evaluation and this row-wise one fail on
exactly the same inputs).  Note there is no validation of `polePairs` or
of any other motor parameter. -/
def process_data (rows : List RawRow) (polePairs : ℤ) (statorResistance : ℝ) :
    Except String (List DerivedRow) :=
  match rows.mapM (processRow polePairs statorResistance) with
  | some out => .ok out
  | none => .error "ZeroDivisionError: float division by zero"

end

/-! ## Lemmas about the nearest-neighbour fallback -/

theorem nearestAux_mem (a b : ℝ) (best : DataPoint) (l : List DataPoint) :
    nearestAux a b best l = best ∨ nearestAux a b best l ∈ l := by
  induction l generalizing best with
  | nil => exact Or.inl rfl
  | cons p ps ih =>
    unfold nearestAux
    by_cases h : dist a b p < dist a b best
    · rw [if_pos h]
      rcases ih p with h1 | h1
      · exact Or.inr (by rw [h1]; exact List.mem_cons_self p ps)
      · exact Or.inr (List.mem_cons_of_mem _ h1)
    · rw [if_neg h]
      rcases ih best with h1 | h1
      · exact Or.inl h1
      · exact Or.inr (List.mem_cons_of_mem _ h1)

theorem nearestAux_le_best (a b : ℝ) (best : DataPoint) (l : List DataPoint) :
    dist a b (nearestAux a b best l) ≤ dist a b best := by
  induction l generalizing best with
  | nil => exact le_refl _
  | cons p ps ih =>
    unfold nearestAux
    by_cases h : dist a b p < dist a b best
    · rw [if_pos h]
      exact le_trans (ih p) h.le
    · rw [if_neg h]
      exact ih best

theorem nearestAux_min (a b : ℝ) (best : DataPoint) (l : List DataPoint) :
    ∀ q ∈ l, dist a b (nearestAux a b best l) ≤ dist a b q := by
  induction l generalizing best with
  | nil => exact fun q hq => absurd hq (List.not_mem_nil q)
  | cons p ps ih =>
    intro q hq
    unfold nearestAux
    by_cases h : dist a b p < dist a b best
    · rw [if_pos h]
      rcases List.mem_cons.mp hq with rfl | hq'
      · exact nearestAux_le_best a b q ps
      · exact ih p q hq'
    · rw [if_neg h]
      rcases List.mem_cons.mp hq with rfl | hq'
      · exact le_trans (nearestAux_le_best a b best ps) (not_lt.mp h)
      · exact ih best q hq'

/-! ## Theorems -/

/-- C6: `electrical_frequency(rpm, pole_pairs)` equals
`|rpm| * pole_pairs * (2 pi / 60)`, is invariant under the sign of the
speed, and is non-negative whenever the pole-pair count is. -/
theorem electrical_frequency_spec (rpm : ℝ) (pp : ℤ) :
    electrical_frequency rpm pp = |rpm| * (pp : ℝ) * (2 * Real.pi / 60) ∧
    electrical_frequency (-rpm) pp = electrical_frequency rpm pp ∧
    (0 ≤ pp → 0 ≤ electrical_frequency rpm pp) := by
  refine ⟨rfl, ?_, fun h => ?_⟩
  · unfold electrical_frequency
    rw [abs_neg]
  · unfold electrical_frequency
    have h1 : (0 : ℝ) ≤ (pp : ℝ) := by exact_mod_cast h
    have h2 : (0 : ℝ) ≤ 2 * Real.pi / 60 := by positivity
    exact mul_nonneg (mul_nonneg (abs_nonneg _) h1) h2

/-- Witness for C6 at rpm = 3, pole pairs = 2. -/
theorem electrical_frequency_spec_witness :
    (0 : ℤ) ≤ 2 ∧ electrical_frequency (-3) 2 = electrical_frequency 3 2 ∧
      0 ≤ electrical_frequency 3 2 :=
  ⟨by norm_num, (electrical_frequency_spec 3 2).2.1,
    (electrical_frequency_spec 3 2).2.2 (by norm_num)⟩

/-- C7: the Park transform followed by the inverse Park transform at the
same angle recovers the original pair exactly (over the reals the round
trip is the identity, hence within any floating tolerance). -/
theorem park_inverse_park_roundtrip (alpha beta theta : ℝ) :
    inverse_park_transform (park_transform alpha beta theta).1
      (park_transform alpha beta theta).2 theta = (alpha, beta) := by
  unfold park_transform inverse_park_transform
  simp only [Prod.mk.injEq]
  constructor
  · linear_combination alpha * Real.sin_sq_add_cos_sq theta
  · linear_combination beta * Real.sin_sq_add_cos_sq theta

/-- C3: for nonzero electrical frequency the voltage-equation flux
linkages are `psi_d = -((Rs iq) - uq) / omega_e` and
`psi_q = ((Rs id) - ud) / omega_e`; at zero frequency both computations
fail (division by zero), and the per-row derivation fails for such a
sample. -/
theorem flux_linkage_voltage_spec (uQ uD iQ iD rs omegaE : ℝ) :
    (omegaE ≠ 0 →
      calculate_flux_linkage_d_axis uQ iQ omegaE rs =
        some (-((rs * iQ) - uQ) / omegaE) ∧
      calculate_flux_linkage_q_axis uD iD omegaE rs =
        some (((rs * iD) - uD) / omegaE)) ∧
    calculate_flux_linkage_d_axis uQ iQ 0 rs = none ∧
    calculate_flux_linkage_q_axis uD iD 0 rs = none ∧
    (∀ (r : RawRow) (pp : ℤ) (rsOhm : ℝ),
      electrical_frequency r.speedRpm pp = 0 → processRow pp rsOhm r = none) := by
  refine ⟨fun h => ⟨?_, ?_⟩, ?_, ?_, fun r pp rsOhm h => ?_⟩
  · unfold calculate_flux_linkage_d_axis
    rw [if_neg h]
    congr 1
    ring
  · unfold calculate_flux_linkage_q_axis
    rw [if_neg h]
  · unfold calculate_flux_linkage_d_axis
    rw [if_pos rfl]
  · unfold calculate_flux_linkage_q_axis
    rw [if_pos rfl]
  · simp [processRow, h, calculate_flux_linkage_d_axis]

/-- Witness for C3 at omega_e = 2 and at a zero-speed sample. -/
theorem flux_linkage_voltage_spec_witness :
    ((2 : ℝ) ≠ 0 ∧
      calculate_flux_linkage_d_axis 3 5 2 7 = some (-((7 * 5 : ℝ) - 3) / 2) ∧
      calculate_flux_linkage_q_axis 11 13 2 7 = some (((7 * 13 : ℝ) - 11) / 2)) ∧
    (electrical_frequency (RawRow.mk 0 1 1 1 1).speedRpm 1 = 0 ∧
      processRow 1 (1 / 10) (RawRow.mk 0 1 1 1 1) = none) := by
  have hfreq : electrical_frequency (RawRow.mk 0 1 1 1 1).speedRpm 1 = 0 := by
    simp [electrical_frequency]
  exact ⟨⟨by norm_num,
      ((flux_linkage_voltage_spec 3 11 5 13 7 2).1 (by norm_num)).1,
      ((flux_linkage_voltage_spec 3 11 5 13 7 2).1 (by norm_num)).2⟩,
    hfreq, (flux_linkage_voltage_spec 3 11 5 13 7 2).2.2.2 _ 1 (1 / 10) hfreq⟩

/-- C9: the flux-based inductances satisfy
`inductance_d = (psi_d - psi_pm) / id` for nonzero `id` (likewise
`inductance_q = psi_q / iq`), and every zero-denominator case of the
flux-based and voltage-based inductance functions returns exactly 0. -/
theorem inductance_guard_spec (psiD psiQ psiPm iD iQ uQ uD omegaE rs : ℝ) :
    (iD ≠ 0 → inductance_d psiD iD psiPm = (psiD - psiPm) / iD) ∧
    inductance_d psiD 0 psiPm = 0 ∧
    (iQ ≠ 0 → inductance_q psiQ iQ = psiQ / iQ) ∧
    inductance_q psiQ 0 = 0 ∧
    (omegaE * iD = 0 → inductance_d_voltage uQ iQ omegaE rs psiPm iD = 0) ∧
    (omegaE * iQ = 0 → inductance_q_voltage uD iD omegaE rs iQ = 0) := by
  refine ⟨fun h => ?_, ?_, fun h => ?_, ?_, fun h => ?_, fun h => ?_⟩ <;>
    simp [inductance_d, inductance_q, inductance_d_voltage,
      inductance_q_voltage, *]

/-- Witness for C9 at nonzero currents 2 and 7 and at the zero cases. -/
theorem inductance_guard_spec_witness :
    ((2 : ℝ) ≠ 0 ∧ inductance_d 1 2 3 = (1 - 3) / 2) ∧
    inductance_d 1 0 3 = 0 ∧
    ((7 : ℝ) ≠ 0 ∧ inductance_q 5 7 = 5 / 7) ∧
    inductance_q 5 0 = 0 ∧
    ((0 : ℝ) * 2 = 0 ∧ inductance_d_voltage 11 7 0 13 3 2 = 0) ∧
    ((0 : ℝ) * 7 = 0 ∧ inductance_q_voltage 17 2 0 13 7 = 0) :=
  ⟨⟨by norm_num, (inductance_guard_spec 1 5 3 2 7 11 17 0 13).1 (by norm_num)⟩,
    (inductance_guard_spec 1 5 3 2 7 11 17 0 13).2.1,
    ⟨by norm_num, (inductance_guard_spec 1 5 3 2 7 11 17 0 13).2.2.1 (by norm_num)⟩,
    (inductance_guard_spec 1 5 3 2 7 11 17 0 13).2.2.2.1,
    ⟨by norm_num, (inductance_guard_spec 1 5 3 2 7 11 17 0 13).2.2.2.2.1 (by norm_num)⟩,
    ⟨by norm_num, (inductance_guard_spec 1 5 3 2 7 11 17 0 13).2.2.2.2.2 (by norm_num)⟩⟩

/-- C2: when no data point lies strictly within `max_dist` of the query,
`interpolate_idw` returns exactly the stored values of a minimum-distance
point, with no arithmetic applied to them. -/
theorem interpolate_idw_nearest_fallback (data : List DataPoint)
    (idTarget iqTarget maxDist : ℝ) (hne : data ≠ [])
    (hout : ∀ p ∈ data, ¬ dist idTarget iqTarget p < maxDist) :
    ∃ p ∈ data, (∀ q ∈ data, dist idTarget iqTarget p ≤ dist idTarget iqTarget q) ∧
      interpolate_idw data idTarget iqTarget maxDist = some (p.psiD, p.psiQ) := by
  match data, hne with
  | p0 :: ps, _ =>
    have hfilter :
        (p0 :: ps).filter (fun p => decide (dist idTarget iqTarget p < maxDist)) = [] := by
      rw [List.filter_eq_nil_iff]
      intro a ha
      simpa using hout a ha
    refine ⟨nearestAux idTarget iqTarget p0 ps, ?_, ?_, ?_⟩
    · rcases nearestAux_mem idTarget iqTarget p0 ps with h1 | h1
      · rw [h1]; exact List.mem_cons_self p0 ps
      · exact List.mem_cons_of_mem _ h1
    · intro q hq
      rcases List.mem_cons.mp hq with rfl | hq'
      · exact nearestAux_le_best idTarget iqTarget q ps
      · exact nearestAux_min idTarget iqTarget p0 ps q hq'
    · simp [interpolate_idw, hfilter]

/-- C1: when at least one data point lies strictly within `max_dist` of the
query, `interpolate_idw` returns, in each output dimension independently,
the average of the values at the points within `max_dist`, weighted by the
reciprocal of the distance clamped up from below to 0.001 and normalised
by the sum of the weights. -/
theorem interpolate_idw_weighted_average (data : List DataPoint)
    (idTarget iqTarget maxDist : ℝ)
    (h : ∃ p ∈ data, dist idTarget iqTarget p < maxDist) :
    interpolate_idw data idTarget iqTarget maxDist =
      (let retained := data.filter fun p => decide (dist idTarget iqTarget p < maxDist)
       let w := fun p => 1 /
         (if dist idTarget iqTarget p < 0.001 then 0.001 else dist idTarget iqTarget p)
       some ((retained.map fun p => p.psiD * w p).sum / (retained.map w).sum,
             (retained.map fun p => p.psiQ * w p).sum / (retained.map w).sum)) := by
  obtain ⟨p, hp, hlt⟩ := h
  have hmem : p ∈ data.filter (fun p => decide (dist idTarget iqTarget p < maxDist)) := by
    rw [List.mem_filter]
    exact ⟨hp, by simpa using hlt⟩
  have hne :
      (data.filter fun p => decide (dist idTarget iqTarget p < maxDist)).isEmpty = false := by
    cases hfe : data.filter fun p => decide (dist idTarget iqTarget p < maxDist) with
    | nil => rw [hfe] at hmem; exact absurd hmem (List.not_mem_nil p)
    | cons q qs => rfl
  simp only [interpolate_idw, clampDist, hne, Bool.false_eq_true, if_false]

/-- Witness for C1 on the worked example of the design document:
query (0.5, 0.5) with threshold 1 retains the two equidistant points and
averages them to (15, 150). -/
theorem interpolate_idw_weighted_average_witness :
    (∃ p ∈ ([⟨0, 0, 10, 100⟩, ⟨1, 1, 20, 200⟩, ⟨2, 2, 30, 300⟩] : List DataPoint),
      dist 0.5 0.5 p < 1) ∧
    interpolate_idw [⟨0, 0, 10, 100⟩, ⟨1, 1, 20, 200⟩, ⟨2, 2, 30, 300⟩] 0.5 0.5 1 =
      some (15, 150) := by
  have e1 : dist 0.5 0.5 (⟨0, 0, 10, 100⟩ : DataPoint) = Real.sqrt 0.5 := by
    unfold dist
    norm_num
  have e2 : dist 0.5 0.5 (⟨1, 1, 20, 200⟩ : DataPoint) = Real.sqrt 0.5 := by
    unfold dist
    norm_num
  have e3 : dist 0.5 0.5 (⟨2, 2, 30, 300⟩ : DataPoint) = Real.sqrt 4.5 := by
    unfold dist
    norm_num
  have hsq : Real.sqrt 0.5 < 1 := by
    nlinarith [Real.sq_sqrt (show (0 : ℝ) ≤ 0.5 by norm_num), Real.sqrt_nonneg 0.5]
  have hclamp : ¬ Real.sqrt 0.5 < 0.001 := by
    nlinarith [Real.sq_sqrt (show (0 : ℝ) ≤ 0.5 by norm_num), Real.sqrt_nonneg 0.5]
  have hfar : ¬ Real.sqrt 4.5 < 1 := by
    nlinarith [Real.sq_sqrt (show (0 : ℝ) ≤ 4.5 by norm_num), Real.sqrt_nonneg 4.5]
  have hhyp : ∃ p ∈ ([⟨0, 0, 10, 100⟩, ⟨1, 1, 20, 200⟩, ⟨2, 2, 30, 300⟩] : List DataPoint),
      dist 0.5 0.5 p < 1 :=
    ⟨⟨0, 0, 10, 100⟩, by simp, by rw [e1]; exact hsq⟩
  have hs0 : Real.sqrt 0.5 ≠ 0 := by positivity
  refine ⟨hhyp, (interpolate_idw_weighted_average _ 0.5 0.5 1 hhyp).trans ?_⟩
  simp only [List.filter_cons, List.filter_nil, e1, e2, e3, hsq, hfar, hclamp,
    decide_eq_true_eq, if_true, if_false, decide_True, decide_False,
    List.map_cons, List.map_nil, List.sum_cons, List.sum_nil,
    Option.some.injEq, Prod.mk.injEq]
  constructor <;> (field_simp; ring)

/-- Witness for C2 on the far-query example of the design document:
query (5, 5) with threshold 1 lies outside every point. -/
theorem interpolate_idw_nearest_fallback_witness :
    (([⟨0, 0, 10, 100⟩, ⟨1, 1, 20, 200⟩, ⟨2, 2, 30, 300⟩] : List DataPoint) ≠ [] ∧
      (∀ p ∈ ([⟨0, 0, 10, 100⟩, ⟨1, 1, 20, 200⟩, ⟨2, 2, 30, 300⟩] : List DataPoint),
        ¬ dist 5 5 p < 1)) ∧
    ∃ p ∈ ([⟨0, 0, 10, 100⟩, ⟨1, 1, 20, 200⟩, ⟨2, 2, 30, 300⟩] : List DataPoint),
      (∀ q ∈ ([⟨0, 0, 10, 100⟩, ⟨1, 1, 20, 200⟩, ⟨2, 2, 30, 300⟩] : List DataPoint),
        dist 5 5 p ≤ dist 5 5 q) ∧
      interpolate_idw [⟨0, 0, 10, 100⟩, ⟨1, 1, 20, 200⟩, ⟨2, 2, 30, 300⟩] 5 5 1 =
        some (p.psiD, p.psiQ) := by
  have f1 : dist 5 5 (⟨0, 0, 10, 100⟩ : DataPoint) = Real.sqrt 50 := by
    unfold dist
    norm_num
  have f2 : dist 5 5 (⟨1, 1, 20, 200⟩ : DataPoint) = Real.sqrt 32 := by
    unfold dist
    norm_num
  have f3 : dist 5 5 (⟨2, 2, 30, 300⟩ : DataPoint) = Real.sqrt 18 := by
    unfold dist
    norm_num
  have g1 : ¬ Real.sqrt 50 < 1 := by
    nlinarith [Real.sq_sqrt (show (0 : ℝ) ≤ 50 by norm_num), Real.sqrt_nonneg 50]
  have g2 : ¬ Real.sqrt 32 < 1 := by
    nlinarith [Real.sq_sqrt (show (0 : ℝ) ≤ 32 by norm_num), Real.sqrt_nonneg 32]
  have g3 : ¬ Real.sqrt 18 < 1 := by
    nlinarith [Real.sq_sqrt (show (0 : ℝ) ≤ 18 by norm_num), Real.sqrt_nonneg 18]
  have hout : ∀ p ∈ ([⟨0, 0, 10, 100⟩, ⟨1, 1, 20, 200⟩, ⟨2, 2, 30, 300⟩] : List DataPoint),
      ¬ dist 5 5 p < 1 := by
    intro p hp
    rcases List.mem_cons.mp hp with rfl | hp
    · rw [f1]; exact g1
    rcases List.mem_cons.mp hp with rfl | hp
    · rw [f2]; exact g2
    rcases List.mem_cons.mp hp with rfl | hp
    · rw [f3]; exact g3
    · exact absurd hp (List.not_mem_nil p)
  have hne : ([⟨0, 0, 10, 100⟩, ⟨1, 1, 20, 200⟩, ⟨2, 2, 30, 300⟩] : List DataPoint) ≠ [] := by
    simp
  exact ⟨⟨hne, hout⟩, interpolate_idw_nearest_fallback _ 5 5 1 hne hout⟩

/-- The far-query example in full: the fallback returns the value of the
nearest point unmodified, (30, 300), matching `test_interpolate_idw` in
`tests/test_calculations.py`. -/
theorem interpolate_idw_far_example :
    interpolate_idw [⟨0, 0, 10, 100⟩, ⟨1, 1, 20, 200⟩, ⟨2, 2, 30, 300⟩] 5 5 1 =
      some (30, 300) := by
  have f1 : dist 5 5 (⟨0, 0, 10, 100⟩ : DataPoint) = Real.sqrt 50 := by
    unfold dist
    norm_num
  have f2 : dist 5 5 (⟨1, 1, 20, 200⟩ : DataPoint) = Real.sqrt 32 := by
    unfold dist
    norm_num
  have f3 : dist 5 5 (⟨2, 2, 30, 300⟩ : DataPoint) = Real.sqrt 18 := by
    unfold dist
    norm_num
  have g1 : ¬ Real.sqrt 50 < 1 := by
    nlinarith [Real.sq_sqrt (show (0 : ℝ) ≤ 50 by norm_num), Real.sqrt_nonneg 50]
  have g2 : ¬ Real.sqrt 32 < 1 := by
    nlinarith [Real.sq_sqrt (show (0 : ℝ) ≤ 32 by norm_num), Real.sqrt_nonneg 32]
  have g3 : ¬ Real.sqrt 18 < 1 := by
    nlinarith [Real.sq_sqrt (show (0 : ℝ) ≤ 18 by norm_num), Real.sqrt_nonneg 18]
  have h21 : Real.sqrt 32 < Real.sqrt 50 := by
    exact Real.sqrt_lt_sqrt (by norm_num) (by norm_num)
  have h32 : Real.sqrt 18 < Real.sqrt 32 := by
    exact Real.sqrt_lt_sqrt (by norm_num) (by norm_num)
  simp only [interpolate_idw, List.filter_cons, List.filter_nil, f1, f2, f3,
    g1, g2, g3, decide_False, if_false, List.isEmpty_nil, if_true]
  simp only [nearestAux, f1, f2, f3, h21, h32, if_pos]
  simp [h21, h32]


/-! ## Lemmas about linspace and the generated tables -/

theorem linspace_length (a b : ℝ) (n : ℕ) : (linspace a b n).length = n := by
  unfold linspace
  by_cases h : n = 1
  · rw [if_pos h, h]
    rfl
  · rw [if_neg h, List.length_map, List.length_range]

theorem linspace_getD (a b : ℝ) (n i : ℕ) (hn : 2 ≤ n) (hi : i < n) :
    (linspace a b n).getD i 0 = a + (i : ℝ) * (b - a) / ((n : ℝ) - 1) := by
  have hlen : i < (linspace a b n).length := by
    rw [linspace_length]; exact hi
  rw [List.getD_eq_getElem _ _ hlen]
  have h1 : n ≠ 1 := by omega
  simp only [linspace, if_neg h1]
  simp only [List.getElem_map, List.getElem_range]

theorem linspace_getD_zero (a b : ℝ) (n : ℕ) (hn : 2 ≤ n) :
    (linspace a b n).getD 0 0 = a := by
  rw [linspace_getD a b n 0 hn (by omega)]
  simp

theorem linspace_getD_last (a b : ℝ) (n : ℕ) (hn : 2 ≤ n) :
    (linspace a b n).getD (n - 1) 0 = b := by
  rw [linspace_getD a b n (n - 1) hn (by omega)]
  have hcast : ((n - 1 : ℕ) : ℝ) = (n : ℝ) - 1 := by
    have h1 : 1 ≤ n := by omega
    push_cast [h1]
    ring
  have hne : (n : ℝ) - 1 ≠ 0 := by
    have : (2 : ℝ) ≤ (n : ℝ) := by exact_mod_cast hn
    linarith
  rw [hcast]
  field_simp

theorem linspace_strict_decreasing (a b : ℝ) (n : ℕ) (hn : 2 ≤ n) (hba : b < a)
    (i j : ℕ) (hij : i < j) (hj : j < n) :
    (linspace a b n).getD j 0 < (linspace a b n).getD i 0 := by
  rw [linspace_getD a b n i hn (by omega), linspace_getD a b n j hn hj,
    mul_div_assoc, mul_div_assoc]
  have hne : (0 : ℝ) < (n : ℝ) - 1 := by
    have : (2 : ℝ) ≤ (n : ℝ) := by exact_mod_cast hn
    linarith
  have hc : (b - a) / ((n : ℝ) - 1) < 0 := div_neg_of_neg_of_pos (by linarith) hne
  have hijR : (i : ℝ) < (j : ℝ) := by exact_mod_cast hij
  have := mul_lt_mul_of_neg_right hijR hc
  linarith

theorem linspace_strict_increasing (a b : ℝ) (n : ℕ) (hn : 2 ≤ n) (hab : a < b)
    (i j : ℕ) (hij : i < j) (hj : j < n) :
    (linspace a b n).getD i 0 < (linspace a b n).getD j 0 := by
  rw [linspace_getD a b n i hn (by omega), linspace_getD a b n j hn hj,
    mul_div_assoc, mul_div_assoc]
  have hne : (0 : ℝ) < (n : ℝ) - 1 := by
    have : (2 : ℝ) ≤ (n : ℝ) := by exact_mod_cast hn
    linarith
  have hc : (0 : ℝ) < (b - a) / ((n : ℝ) - 1) := div_pos (by linarith) hne
  have hijR : (i : ℝ) < (j : ℝ) := by exact_mod_cast hij
  have := mul_lt_mul_of_pos_right hijR hc
  linarith

theorem interpolate_idw_isSome (data : List DataPoint) (hne : data ≠ [])
    (a b m : ℝ) : ∃ v, interpolate_idw data a b m = some v := by
  match data, hne with
  | p :: ps, _ =>
    simp only [interpolate_idw]
    split
    · exact ⟨_, rfl⟩
    · exact ⟨_, rfl⟩

/-- The table record that `generate_pmac_tables` returns on valid input;
proof-side restatement of the success branch. -/
noncomputable def tableOf (data : List DataPoint) (size : ℤ) (maxCurrent : ℝ) :
    TableResult :=
  let n := size.toNat
  let idGrid := linspace 0 (-maxCurrent) n
  let iqGrid := linspace 0 maxCurrent n
  let maxDist := dataMaxDist data
  { psiD := iqGrid.map fun iqTarget => idGrid.map fun idTarget =>
      ((interpolate_idw data idTarget iqTarget maxDist).getD (0, 0)).1
    psiQ := iqGrid.map fun iqTarget => idGrid.map fun idTarget =>
      ((interpolate_idw data idTarget iqTarget maxDist).getD (0, 0)).2
    idGrid := idGrid
    iqGrid := iqGrid
    idMatrix := iqGrid.map fun _ => idGrid
    iqMatrix := iqGrid.map fun iqTarget => idGrid.map fun _ => iqTarget }

theorem generate_pmac_tables_eq_ok (data : List DataPoint) (size : ℤ)
    (mc : ℝ) (h2 : 2 ≤ size) (hmc : 0 < mc) (hd : data ≠ []) :
    generate_pmac_tables data size mc = .ok (tableOf data size mc) := by
  unfold generate_pmac_tables tableOf
  rw [if_neg (by omega), if_neg (by push_neg; exact hmc), if_neg (by omega),
    if_neg (by simp [hd])]

theorem tableOf_getD_psiD (data : List DataPoint) (size : ℤ) (mc : ℝ)
    (y : ℕ) (hy : y < size.toNat) :
    (tableOf data size mc).psiD.getD y [] =
      (linspace 0 (-mc) size.toNat).map fun idTarget =>
        ((interpolate_idw data idTarget
          ((linspace 0 mc size.toNat).getD y 0) (dataMaxDist data)).getD (0, 0)).1 := by
  have hiqlen : y < (linspace 0 mc size.toNat).length := by
    rw [linspace_length]; exact hy
  unfold tableOf
  simp only
  rw [List.getD_eq_getElem _ _ (by simpa using hiqlen),
    List.getD_eq_getElem _ _ hiqlen]
  simp

theorem tableOf_getD_psiQ (data : List DataPoint) (size : ℤ) (mc : ℝ)
    (y : ℕ) (hy : y < size.toNat) :
    (tableOf data size mc).psiQ.getD y [] =
      (linspace 0 (-mc) size.toNat).map fun idTarget =>
        ((interpolate_idw data idTarget
          ((linspace 0 mc size.toNat).getD y 0) (dataMaxDist data)).getD (0, 0)).2 := by
  have hiqlen : y < (linspace 0 mc size.toNat).length := by
    rw [linspace_length]; exact hy
  unfold tableOf
  simp only
  rw [List.getD_eq_getElem _ _ (by simpa using hiqlen),
    List.getD_eq_getElem _ _ hiqlen]
  simp

theorem mapped_row_getD (l : List ℝ) (f : ℝ → ℝ) (x : ℕ) (hx : x < l.length) :
    (l.map f).getD x 0 = f (l.getD x 0) := by
  rw [List.getD_eq_getElem _ _ (by simpa using hx),
    List.getD_eq_getElem _ _ hx]
  simp

theorem tableOf_entry (data : List DataPoint) (size : ℤ) (mc : ℝ)
    (hd : data ≠ []) (x y : ℕ)
    (hx : x < size.toNat) (hy : y < size.toNat) :
    interpolate_idw data ((tableOf data size mc).idGrid.getD x 0)
      ((tableOf data size mc).iqGrid.getD y 0) (dataMaxDist data) =
      some (((tableOf data size mc).psiD.getD y []).getD x 0,
            ((tableOf data size mc).psiQ.getD y []).getD x 0) := by
  have hidlen : x < (linspace 0 (-mc) size.toNat).length := by
    rw [linspace_length]; exact hx
  have hid : (tableOf data size mc).idGrid = linspace 0 (-mc) size.toNat := rfl
  have hiq : (tableOf data size mc).iqGrid = linspace 0 mc size.toNat := rfl
  rw [hid, hiq, tableOf_getD_psiD data size mc y hy, tableOf_getD_psiQ data size mc y hy,
    mapped_row_getD _ _ x hidlen, mapped_row_getD _ _ x hidlen]
  obtain ⟨v, hv⟩ := interpolate_idw_isSome data hd
    ((linspace 0 (-mc) size.toNat).getD x 0)
    ((linspace 0 mc size.toNat).getD y 0) (dataMaxDist data)
  rw [hv]
  simp

/-- The shape-and-axes contract for a generated table set: square tables,
an Id axis strictly decreasing from 0 to the negated maximum current, an
Iq axis strictly increasing from 0 to the maximum current, and table
entries indexed `[iq][id]` holding the interpolation at the corresponding
grid point. -/
def TableSpec (data : List DataPoint) (size : ℤ) (mc : ℝ) (t : TableResult) :
    Prop :=
  t.psiD.length = size.toNat ∧
  (∀ row ∈ t.psiD, row.length = size.toNat) ∧
  t.psiQ.length = size.toNat ∧
  (∀ row ∈ t.psiQ, row.length = size.toNat) ∧
  t.idGrid.length = size.toNat ∧
  t.iqGrid.length = size.toNat ∧
  t.idGrid.getD 0 0 = 0 ∧
  t.idGrid.getD (size.toNat - 1) 0 = -mc ∧
  t.iqGrid.getD 0 0 = 0 ∧
  t.iqGrid.getD (size.toNat - 1) 0 = mc ∧
  (∀ i j : ℕ, i < j → j < size.toNat → t.idGrid.getD j 0 < t.idGrid.getD i 0) ∧
  (∀ i j : ℕ, i < j → j < size.toNat → t.iqGrid.getD i 0 < t.iqGrid.getD j 0) ∧
  (∀ x y : ℕ, x < size.toNat → y < size.toNat →
    interpolate_idw data (t.idGrid.getD x 0) (t.iqGrid.getD y 0)
      (dataMaxDist data) =
      some ((t.psiD.getD y []).getD x 0, (t.psiQ.getD y []).getD x 0))

/-- C4 (amended from size ≥ 1 to size ≥ 2, since size = 1 divides by zero
at the step computation): for integer size ≥ 2, positive maximum current
and nonempty data, `generate_pmac_tables` returns size by size tables, an
Id axis strictly decreasing from 0 to the negated maximum current, an Iq
axis strictly increasing from 0 to the maximum current, indexed
`[iq][id]`. -/
theorem generate_pmac_tables_shape (data : List DataPoint) (size : ℤ)
    (mc : ℝ) (h2 : 2 ≤ size) (hmc : 0 < mc) (hd : data ≠ []) :
    ∃ t, generate_pmac_tables data size mc = .ok t ∧ TableSpec data size mc t := by
  refine ⟨tableOf data size mc,
    generate_pmac_tables_eq_ok data size mc h2 hmc hd, ?_⟩
  have hn : 2 ≤ size.toNat := by omega
  have hid : (tableOf data size mc).idGrid = linspace 0 (-mc) size.toNat := rfl
  have hiq : (tableOf data size mc).iqGrid = linspace 0 mc size.toNat := rfl
  have hpsiD : (tableOf data size mc).psiD =
      (linspace 0 mc size.toNat).map fun iqTarget =>
        (linspace 0 (-mc) size.toNat).map fun idTarget =>
          ((interpolate_idw data idTarget iqTarget (dataMaxDist data)).getD (0, 0)).1 := rfl
  have hpsiQ : (tableOf data size mc).psiQ =
      (linspace 0 mc size.toNat).map fun iqTarget =>
        (linspace 0 (-mc) size.toNat).map fun idTarget =>
          ((interpolate_idw data idTarget iqTarget (dataMaxDist data)).getD (0, 0)).2 := rfl
  refine ⟨?_, ?_, ?_, ?_, ?_, ?_, ?_, ?_, ?_, ?_, ?_, ?_, ?_⟩
  · rw [hpsiD, List.length_map, linspace_length]
  · intro row hrow
    rw [hpsiD] at hrow
    obtain ⟨iqT, _, rfl⟩ := List.mem_map.mp hrow
    rw [List.length_map, linspace_length]
  · rw [hpsiQ, List.length_map, linspace_length]
  · intro row hrow
    rw [hpsiQ] at hrow
    obtain ⟨iqT, _, rfl⟩ := List.mem_map.mp hrow
    rw [List.length_map, linspace_length]
  · rw [hid, linspace_length]
  · rw [hiq, linspace_length]
  · rw [hid]; exact linspace_getD_zero 0 (-mc) size.toNat hn
  · rw [hid]; exact linspace_getD_last 0 (-mc) size.toNat hn
  · rw [hiq]; exact linspace_getD_zero 0 mc size.toNat hn
  · rw [hiq]; exact linspace_getD_last 0 mc size.toNat hn
  · intro i j hij hj
    rw [hid]
    exact linspace_strict_decreasing 0 (-mc) size.toNat hn (by linarith) i j hij hj
  · intro i j hij hj
    rw [hiq]
    exact linspace_strict_increasing 0 mc size.toNat hn (by linarith) i j hij hj
  · intro x y hx hy
    exact tableOf_entry data size mc hd x y hx hy

/-- Counterexample to C4 as stated: with size = 1 (which the claim allows),
a positive maximum current and nonempty data, `generate_pmac_tables` fails
with the division-by-zero of `step = max_current / (size - 1)` instead of
returning 1 by 1 tables. -/
theorem generate_pmac_tables_shape_counterexample :
    generate_pmac_tables [⟨1, 1, 1, 1⟩] 1 100 =
      .error "ZeroDivisionError: division by zero" := by
  unfold generate_pmac_tables
  rw [if_neg (by norm_num), if_neg (by norm_num), if_pos rfl]

/-- Witness for the amended C4 at size 2, maximum current 1 and a single
data point. -/
theorem generate_pmac_tables_shape_witness :
    (2 : ℤ) ≤ 2 ∧ (0 : ℝ) < 1 ∧ ([⟨1, 1, 1, 1⟩] : List DataPoint) ≠ [] ∧
    ∃ t, generate_pmac_tables [⟨1, 1, 1, 1⟩] 2 1 = .ok t ∧
      TableSpec [⟨1, 1, 1, 1⟩] 2 1 t :=
  ⟨by norm_num, by norm_num, by simp,
    generate_pmac_tables_shape [⟨1, 1, 1, 1⟩] 2 1 (by norm_num) (by norm_num)
      (by simp)⟩

/-- C5: every grid node of a generated table set is interpolated with the
radius `sqrt(range(id)^2 + range(iq)^2) / 2` computed from the sample
coordinate spread alone; the radius expression mentions only the data,
never the table parameters. -/
theorem generate_pmac_tables_radius (data : List DataPoint) (size : ℤ)
    (mc : ℝ) (h2 : 2 ≤ size) (hmc : 0 < mc) (hd : data ≠ []) :
    ∃ t, generate_pmac_tables data size mc = .ok t ∧
      ∀ x y : ℕ, x < size.toNat → y < size.toNat →
        interpolate_idw data (t.idGrid.getD x 0) (t.iqGrid.getD y 0)
          (Real.sqrt
            ((listMax (data.map DataPoint.id) - listMin (data.map DataPoint.id)) ^ 2 +
             (listMax (data.map DataPoint.iq) - listMin (data.map DataPoint.iq)) ^ 2) / 2) =
          some ((t.psiD.getD y []).getD x 0, (t.psiQ.getD y []).getD x 0) := by
  refine ⟨tableOf data size mc,
    generate_pmac_tables_eq_ok data size mc h2 hmc hd, fun x y hx hy => ?_⟩
  exact tableOf_entry data size mc hd x y hx hy

/-- Witness for C5 at size 2, maximum current 1 and a single data point. -/
theorem generate_pmac_tables_radius_witness :
    (2 : ℤ) ≤ 2 ∧ (0 : ℝ) < 1 ∧ ([⟨3, 4, 5, 6⟩] : List DataPoint) ≠ [] ∧
    ∃ t, generate_pmac_tables [⟨3, 4, 5, 6⟩] 2 1 = .ok t ∧
      ∀ x y : ℕ, x < (2 : ℤ).toNat → y < (2 : ℤ).toNat →
        interpolate_idw [⟨3, 4, 5, 6⟩] (t.idGrid.getD x 0) (t.iqGrid.getD y 0)
          (Real.sqrt
            ((listMax (([⟨3, 4, 5, 6⟩] : List DataPoint).map DataPoint.id) -
              listMin (([⟨3, 4, 5, 6⟩] : List DataPoint).map DataPoint.id)) ^ 2 +
             (listMax (([⟨3, 4, 5, 6⟩] : List DataPoint).map DataPoint.iq) -
              listMin (([⟨3, 4, 5, 6⟩] : List DataPoint).map DataPoint.iq)) ^ 2) / 2) =
          some ((t.psiD.getD y []).getD x 0, (t.psiQ.getD y []).getD x 0) :=
  ⟨by norm_num, by norm_num, by simp,
    generate_pmac_tables_radius [⟨3, 4, 5, 6⟩] 2 1 (by norm_num) (by norm_num)
      (by simp)⟩

/-- C10: with size exactly 1 the positivity assertions pass but the step
computation `max_current / (size - 1)` divides by zero before any table is
produced; for every integer size ≥ 2 the function runs its interpolation
loop to completion and returns tables. -/
theorem generate_pmac_tables_step_division (data : List DataPoint) (mc : ℝ)
    (hmc : 0 < mc) :
    generate_pmac_tables data 1 mc = .error "ZeroDivisionError: division by zero" ∧
    ∀ size : ℤ, 2 ≤ size → data ≠ [] →
      ∃ t, generate_pmac_tables data size mc = .ok t := by
  constructor
  · unfold generate_pmac_tables
    rw [if_neg (by norm_num), if_neg (by push_neg; exact hmc), if_pos rfl]
  · intro size h2 hd
    exact ⟨tableOf data size mc, generate_pmac_tables_eq_ok data size mc h2 hmc hd⟩

/-- Witness for C10 at maximum current 1 with a single data point. -/
theorem generate_pmac_tables_step_division_witness :
    (0 : ℝ) < 1 ∧
    generate_pmac_tables ([⟨2, 2, 2, 2⟩] : List DataPoint) 1 1 =
      .error "ZeroDivisionError: division by zero" ∧
    ((2 : ℤ) ≤ 2 ∧ ([⟨2, 2, 2, 2⟩] : List DataPoint) ≠ [] ∧
      ∃ t, generate_pmac_tables [⟨2, 2, 2, 2⟩] 2 1 = .ok t) :=
  ⟨by norm_num,
    (generate_pmac_tables_step_division [⟨2, 2, 2, 2⟩] 1 (by norm_num)).1,
    by norm_num, by simp,
    (generate_pmac_tables_step_division [⟨2, 2, 2, 2⟩] 1 (by norm_num)).2 2
      (by norm_num) (by simp)⟩

/-! ## Lemmas about the derivation pipeline -/

theorem efreq_ne_zero_of_neg (rpm : ℝ) (pp : ℤ) (hrpm : rpm ≠ 0)
    (hpp : pp < 0) : electrical_frequency rpm pp ≠ 0 := by
  unfold electrical_frequency
  have h1 : 0 < |rpm| := abs_pos.mpr hrpm
  have h2 : ((pp : ℝ)) < 0 := by exact_mod_cast hpp
  have h3 : (0 : ℝ) < 2 * Real.pi / 60 := by positivity
  have h4 : |rpm| * (pp : ℝ) < 0 := mul_neg_of_pos_of_neg h1 h2
  exact ne_of_lt (mul_neg_of_neg_of_pos h4 h3)

theorem processRow_isSome (pp : ℤ) (rsOhm : ℝ) (r : RawRow)
    (h : electrical_frequency r.speedRpm pp ≠ 0) :
    ∃ d, processRow pp rsOhm r = some d := by
  simp only [processRow, calculate_flux_linkage_d_axis,
    calculate_flux_linkage_q_axis, if_neg h]
  exact ⟨_, rfl⟩

theorem processRow_zero_pp (rsOhm : ℝ) (r : RawRow) :
    processRow 0 rsOhm r = none := by
  have h0 : electrical_frequency r.speedRpm 0 = 0 := by
    simp [electrical_frequency]
  simp [processRow, h0, calculate_flux_linkage_d_axis]

theorem mapM_isSome {α β : Type} (f : α → Option β) (l : List α)
    (h : ∀ a ∈ l, ∃ b, f a = some b) : ∃ out, l.mapM f = some out := by
  induction l with
  | nil => exact ⟨[], rfl⟩
  | cons a as ih =>
    obtain ⟨b, hb⟩ := h a (List.mem_cons_self a as)
    obtain ⟨out, hout⟩ := ih fun x hx => h x (List.mem_cons_of_mem a hx)
    refine ⟨b :: out, ?_⟩
    rw [List.mapM_cons, hb, hout]
    rfl

/-- C8 (amended): non-positive grid size and non-positive maximum current
are rejected eagerly by the table generator, before it touches the sample
data; the pole-pair count, however, is never validated: the derivation
with a negative pole-pair count and nonzero speeds runs to completion
with no error, and with a zero pole-pair count it fails inside the
per-row flux computation with a division-by-zero, not with a validation
error. -/
theorem parameter_validation_spec :
    (∀ (data : List DataPoint) (size : ℤ) (mc : ℝ), size ≤ 0 →
      generate_pmac_tables data size mc = .error "Table size must be positive") ∧
    (∀ (data : List DataPoint) (size : ℤ) (mc : ℝ), 0 < size → mc ≤ 0 →
      generate_pmac_tables data size mc = .error "Max current must be positive") ∧
    (∀ (rows : List RawRow) (pp : ℤ) (rsOhm : ℝ), pp < 0 →
      (∀ r ∈ rows, r.speedRpm ≠ 0) →
      ∃ out, process_data rows pp rsOhm = .ok out) ∧
    (∀ (rows : List RawRow) (rsOhm : ℝ), rows ≠ [] →
      process_data rows 0 rsOhm =
        .error "ZeroDivisionError: float division by zero") := by
  refine ⟨fun data size mc h => ?_, fun data size mc h1 h2 => ?_,
    fun rows pp rsOhm hpp hspeed => ?_, fun rows rsOhm hne => ?_⟩
  · unfold generate_pmac_tables
    rw [if_pos h]
  · unfold generate_pmac_tables
    rw [if_neg (by omega), if_pos h2]
  · obtain ⟨out, hout⟩ := mapM_isSome (processRow pp rsOhm) rows fun r hr =>
      processRow_isSome pp rsOhm r
        (efreq_ne_zero_of_neg r.speedRpm pp (hspeed r hr) hpp)
    refine ⟨out, ?_⟩
    unfold process_data
    rw [hout]
  · match rows, hne with
    | r :: rest, _ =>
      unfold process_data
      rw [List.mapM_cons, processRow_zero_pp rsOhm r]
      rfl

/-- Counterexample to C8 as stated: a derivation run with the non-positive
pole-pair count -1 succeeds, so it is not rejected with a validation
error and the sample data is fully processed. -/
theorem parameter_validation_counterexample :
    (process_data [⟨30, 1, 1, 1, 1⟩] (-1) (1 / 2)).isOk = true := by
  have hfreq : electrical_frequency (RawRow.mk 30 1 1 1 1).speedRpm (-1) ≠ 0 :=
    efreq_ne_zero_of_neg _ (-1) (by norm_num) (by norm_num)
  obtain ⟨d, hd⟩ := processRow_isSome (-1) (1 / 2) (RawRow.mk 30 1 1 1 1) hfreq
  unfold process_data
  rw [List.mapM_cons, hd]
  rfl

/-- Witness for the amended C8: each clause instantiated at a concrete
input. -/
theorem parameter_validation_spec_witness :
    ((-1 : ℤ) ≤ 0 ∧
      generate_pmac_tables [] (-1) 5 = .error "Table size must be positive") ∧
    ((0 : ℤ) < 2 ∧ (-3 : ℝ) ≤ 0 ∧
      generate_pmac_tables [] 2 (-3) = .error "Max current must be positive") ∧
    ((-2 : ℤ) < 0 ∧ (∀ r ∈ ([⟨30, 1, 1, 1, 1⟩] : List RawRow), r.speedRpm ≠ 0) ∧
      ∃ out, process_data [⟨30, 1, 1, 1, 1⟩] (-2) 1 = .ok out) ∧
    (([⟨30, 1, 1, 1, 1⟩] : List RawRow) ≠ [] ∧
      process_data [⟨30, 1, 1, 1, 1⟩] 0 1 =
        .error "ZeroDivisionError: float division by zero") := by
  have hsp : ∀ r ∈ ([⟨30, 1, 1, 1, 1⟩] : List RawRow), r.speedRpm ≠ 0 := by
    intro r hr
    rcases List.mem_cons.mp hr with rfl | hr
    · norm_num
    · exact absurd hr (List.not_mem_nil r)
  have hne : ([⟨30, 1, 1, 1, 1⟩] : List RawRow) ≠ [] := by simp
  exact ⟨⟨by norm_num, parameter_validation_spec.1 [] (-1) 5 (by norm_num)⟩,
    ⟨by norm_num, by norm_num,
      parameter_validation_spec.2.1 [] 2 (-3) (by norm_num) (by norm_num)⟩,
    ⟨by norm_num, hsp,
      parameter_validation_spec.2.2.1 [⟨30, 1, 1, 1, 1⟩] (-2) 1 (by norm_num) hsp⟩,
    ⟨hne, parameter_validation_spec.2.2.2 [⟨30, 1, 1, 1, 1⟩] 1 hne⟩⟩
